import Mathlib

/-!
Shallow embedding of the logic nucleus of `app_GSver.py` (a measles
case-tracking app): identifier normalization (`clean_id`), MyKad
date-of-birth derivation (`parse_mykad_dob`), age display
(`calculate_age_display`), the epidemiologist finalize handler's case
classification, and the admin "Confirmed Measles" metric.
-/

namespace MeaslesApp

/-- A calendar date as year/month/day components (the embedding of Python
`datetime.date` values). Field validity is tracked by explicit hypotheses
where a theorem needs it. -/
structure Date where
  year : Nat
  month : Nat
  day : Nat
deriving DecidableEq, Repr

/-- `clean_id` helper: Python `s.replace(c, "")` removes every occurrence
of the character `c`. -/
def removeAll (c : Char) (s : String) : String :=
  ⟨s.data.filter (fun a => a ≠ c)⟩

/-- `clean_id(id_str)` (source lines 81-85): `id_str.replace("-", "").replace(" ", "")`
when `id_str` is truthy (non-empty), else `""`. -/
def clean_id (id_str : String) : String :=
  if id_str = "" then "" else removeAll ' ' (removeAll '-' id_str)

/-- Gregorian leap-year rule, as used by Python `datetime`. -/
def isLeap (y : Nat) : Bool :=
  y % 4 = 0 && (y % 100 ≠ 0 || y % 400 = 0)

/-- Number of days in month `m` of year `y` (Gregorian calendar). -/
def daysInMonth (y m : Nat) : Nat :=
  if m = 2 then (if isLeap y then 29 else 28)
  else if m = 4 ∨ m = 6 ∨ m = 9 ∨ m = 11 then 30
  else 31

/-- Validity of (year, month, day) as a calendar date, the condition under
which Python `datetime.strptime(f"{y}-{m}-{d}", "%Y-%m-%d")` succeeds. -/
def validDate (y m d : Nat) : Bool :=
  decide (1 ≤ m ∧ m ≤ 12 ∧ 1 ≤ d ∧ d ≤ daysInMonth y m)

/-- The `datetime.strptime(...).date()` call of `parse_mykad_dob` together
with the surrounding `try`/`except ValueError` (source lines 91-102): a
valid calendar date is returned, an invalid one becomes `none`. -/
def strptimeDate (y m d : Nat) : Option Date :=
  if validDate y m d then some ⟨y, m, d⟩ else none

/-- Numeric value of a decimal digit character. -/
def digitVal (c : Char) : Nat := c.toNat - 48

/-- `int` value of the two characters of `l` at positions `i`, `i+1`
(the embedding of `int(clean[i:i+2])` for an all-digit `clean`). -/
def twoDigitVal (l : List Char) (i : Nat) : Nat :=
  10 * digitVal (l.getD i '0') + digitVal (l.getD (i + 1) '0')

/-- `parse_mykad_dob(mykad)` (source lines 87-103). The Python code reads
the clock via `datetime.now().strftime("%y")`; the embedding passes that
clock reading as the explicit `now` argument, and
`current_year_short = now.year % 100`. The guard embeds
`len(clean) == 12 and clean.isdigit()` with `isdigit` read as the ASCII
digits 0-9: on inputs whose cleaned form is ASCII this is exactly the
program's behavior. Python's `str.isdigit` additionally accepts non-ASCII
Unicode digit characters (for example `"990101"` followed by six
Arabic-Indic zeros passes the guard with its tail never parsed, and the
program derives 1999-01-01); such non-ASCII inputs are outside this
embedding, so the malformed-input theorem below carries an explicit
ASCII hypothesis. -/
def parse_mykad_dob (now : Date) (mykad : String) : Option Date :=
  let clean := clean_id mykad
  if clean.length = 12 ∧ clean.data.all Char.isDigit then
    let year_prefix := twoDigitVal clean.data 0
    let month := twoDigitVal clean.data 2
    let day := twoDigitVal clean.data 4
    let current_year_short := now.year % 100
    let full_year :=
      if year_prefix ≤ current_year_short then 2000 + year_prefix
      else 1900 + year_prefix
    strptimeDate full_year month day
  else none

/-- The arithmetic core of `calculate_age_display` (source lines 109-115):
the (years, months) pair after the day-borrow and negative-month
adjustments. -/
def age_years_months (today dob : Date) : Int × Int :=
  let years : Int := (today.year : Int) - (dob.year : Int)
  let months0 : Int := (today.month : Int) - (dob.month : Int)
  let months1 : Int := if today.day < dob.day then months0 - 1 else months0
  if months1 < 0 then (years - 1, months1 + 12) else (years, months1)

/-- `calculate_age_display(dob)` (source lines 105-116). The Python code
reads `datetime.now().date()` internally; the embedding passes that clock
reading as the explicit `today` argument. A falsy (`None`) dob yields `""`,
otherwise the f-string `f"{years} years, {months} months"`. -/
def calculate_age_display (today : Date) (dob : Option Date) : String :=
  match dob with
  | none => ""
  | some d =>
    let p := age_years_months today d
    toString p.1 ++ " years, " ++ toString p.2 ++ " months"

/-- IgM selectbox values (source line 487). -/
inductive IgMResult
  | Pending
  | Positive
  | Negative
deriving DecidableEq

/-- PCR selectbox values (source line 488). -/
inductive PCRResult
  | NotDone
  | Positive
  | Negative
deriving DecidableEq

/-- Epi-link selectbox values (source line 489). -/
inductive EpiLink
  | No
  | Yes
deriving DecidableEq

/-- The string each IgM selectbox value carries in the code. -/
def IgMResult.label : IgMResult → String
  | .Pending => "Pending"
  | .Positive => "Positive"
  | .Negative => "Negative"

/-- The string each PCR selectbox value carries in the code. -/
def PCRResult.label : PCRResult → String
  | .NotDone => "Not Done"
  | .Positive => "Positive"
  | .Negative => "Negative"

/-- The string each epi-link selectbox value carries in the code. -/
def EpiLink.label : EpiLink → String
  | .No => "No"
  | .Yes => "Yes"

/-- The finalize handler's classification (source lines 492-494), with the
code's string comparisons kept verbatim:
`final_class = "Discarded"`, overwritten by the `if`/`elif` chain. -/
def finalize_classification (lab_igm : IgMResult) (lab_pcr : PCRResult)
    (epi_link : EpiLink) : String :=
  if lab_pcr.label = "Positive" ∨ lab_igm.label = "Positive" then
    "Lab Confirmed Measles"
  else if epi_link.label = "Yes" then "Epi Linked Measles"
  else "Discarded"

/-- The spec's abstract classification values. -/
inductive Classification
  | LabConfirmedMeasles
  | EpiLinkedMeasles
  | Discarded
deriving DecidableEq

/-- The record-store string of each abstract classification value. -/
def Classification.label : Classification → String
  | .LabConfirmedMeasles => "Lab Confirmed Measles"
  | .EpiLinkedMeasles => "Epi Linked Measles"
  | .Discarded => "Discarded"

/-- Modelled from the spec (§4.3): `classify(findings)` with the
precedence lab-positive, then epi-link, then discard. Compared against
`finalize_classification`, the code's version, in the C2 theorem. -/
def classify (lab_igm : IgMResult) (lab_pcr : PCRResult)
    (epi_link : EpiLink) : Classification :=
  if lab_pcr = .Positive ∨ lab_igm = .Positive then .LabConfirmedMeasles
  else if epi_link = .Yes then .EpiLinkedMeasles
  else .Discarded

/-- Full-date (lexicographic) comparison of calendar dates. -/
def date_le (a b : Date) : Prop :=
  a.year < b.year ∨
    (a.year = b.year ∧
      (a.month < b.month ∨ (a.month = b.month ∧ a.day ≤ b.day)))

instance (a b : Date) : Decidable (date_le a b) := by
  unfold date_le
  infer_instance

/-- `pandas` `Series.str.contains("Measles")` on one cell: the pattern has
no regex metacharacters, so it is the plain substring test. -/
def str_contains (s pat : String) : Bool :=
  decide (pat.data <:+: s.data)

/-- The admin view's "Confirmed Measles" metric (source line 522):
`len(df[df['Final_Classification'].str.contains("Measles")])` over the
column of classification strings. -/
def confirmed_measles_metric (classifications : List String) : Nat :=
  (classifications.filter (fun s => str_contains s "Measles")).length

/-- The first token of `age_str.split(" ")` (source line 198): the first
element of a Python split on a single space is the maximal space-free
leading segment of the string. -/
def split_first_token (s : String) : String :=
  ⟨s.data.takeWhile (fun c => c ≠ ' ')⟩

/-- The decimal digit characters of `n`, most significant first: a
fuel-free reformulation of core's `Nat.toDigitsCore`, used to reason about
`Nat.repr` and hence about the `toString` rendering of ages. -/
def digits10 (n : Nat) : List Char :=
  if h : n < 10 then [Nat.digitChar n]
  else
    have : n / 10 < n := Nat.div_lt_self (by omega) (by omega)
    digits10 (n / 10) ++ [Nat.digitChar (n % 10)]
termination_by n

section Helpers

theorem clean_id_data (s : String) :
    (clean_id s).data = s.data.filter (fun c => !(c == '-' || c == ' ')) := by
  unfold clean_id removeAll
  split
  · rename_i h
    subst h
    rfl
  · simp only [List.filter_filter]
    refine List.filter_congr fun a _ => ?_
    by_cases h1 : a = '-' <;> by_cases h2 : a = ' ' <;> simp [h1, h2]

theorem clean_id_idem (s : String) : clean_id (clean_id s) = clean_id s := by
  apply String.ext
  rw [clean_id_data, clean_id_data, List.filter_filter]
  exact List.filter_congr fun a _ => by by_cases h1 : a = '-' <;>
    by_cases h2 : a = ' ' <;> simp [h1, h2]

theorem clean_id_of_not_mem (s : String) (h1 : '-' ∉ s.data)
    (h2 : ' ' ∉ s.data) : clean_id s = s := by
  apply String.ext
  rw [clean_id_data]
  refine List.filter_eq_self.2 fun a ha => ?_
  have n1 : a ≠ '-' := fun e => h1 (e ▸ ha)
  have n2 : a ≠ ' ' := fun e => h2 (e ▸ ha)
  simp [n1, n2]

theorem not_mem_of_all_digit (s : String) (hd : s.data.all Char.isDigit) :
    '-' ∉ s.data ∧ ' ' ∉ s.data := by
  constructor <;> intro hmem <;>
    have := List.all_eq_true.1 hd _ hmem <;> exact absurd this (by decide)

theorem clean_id_of_digits (s : String) (hd : s.data.all Char.isDigit) :
    clean_id s = s :=
  clean_id_of_not_mem s (not_mem_of_all_digit s hd).1
    (not_mem_of_all_digit s hd).2

/-- On a length-12 all-digit input the normalization is the identity and
`parse_mykad_dob` reduces to the century rule plus the calendar check. -/
theorem parse_mykad_dob_digits (now : Date) (s : String)
    (h12 : s.length = 12) (hd : s.data.all Char.isDigit) :
    parse_mykad_dob now s =
      strptimeDate
        (if twoDigitVal s.data 0 ≤ now.year % 100 then
          2000 + twoDigitVal s.data 0
         else 1900 + twoDigitVal s.data 0)
        (twoDigitVal s.data 2) (twoDigitVal s.data 4) := by
  simp only [parse_mykad_dob, clean_id_of_digits s hd]
  rw [if_pos ⟨h12, hd⟩]

theorem digitChar_toNat_sub (r : Nat) (h : r < 10) :
    (Nat.digitChar r).toNat - 48 = r := by
  interval_cases r <;> decide

theorem digitChar_isDigit (r : Nat) (h : r < 10) :
    (Nat.digitChar r).isDigit = true := by
  interval_cases r <;> decide

theorem toDigitsCore_eq (n : Nat) : ∀ (fuel : Nat) (ds : List Char),
    n < fuel → Nat.toDigitsCore 10 fuel n ds = digits10 n ++ ds := by
  induction n using Nat.strong_induction_on with
  | _ n ih =>
    intro fuel ds hfuel
    match fuel with
    | 0 => omega
    | f + 1 =>
      simp only [Nat.toDigitsCore]
      by_cases hn : n / 10 = 0
      · rw [if_pos hn, digits10, dif_pos (by omega : n < 10),
          Nat.mod_eq_of_lt (by omega)]
        rfl
      · rw [if_neg hn,
          ih (n / 10) (Nat.div_lt_self (by omega) (by omega)) f _ (by omega)]
        conv_rhs => rw [digits10]
        rw [dif_neg (by omega : ¬n < 10)]
        simp

theorem digits10_ne_nil (n : Nat) : digits10 n ≠ [] := by
  rw [digits10]
  split <;> simp

theorem digits10_all_digit (n : Nat) : ∀ c ∈ digits10 n, c.isDigit = true := by
  induction n using Nat.strong_induction_on with
  | _ n ih =>
    rw [digits10]
    split
    · rename_i h
      intro c hc
      rw [List.mem_singleton] at hc
      subst hc
      exact digitChar_isDigit n h
    · rename_i h
      intro c hc
      rcases List.mem_append.1 hc with h1 | h2
      · exact ih (n / 10) (Nat.div_lt_self (by omega) (by omega)) c h1
      · rw [List.mem_singleton] at h2
        subst h2
        exact digitChar_isDigit _ (Nat.mod_lt _ (by omega))

theorem digits10_foldl (n : Nat) : ∀ acc : Nat,
    (digits10 n).foldl (fun a c => a * 10 + (c.toNat - 48)) acc =
      acc * 10 ^ (digits10 n).length + n := by
  induction n using Nat.strong_induction_on with
  | _ n ih =>
    intro acc
    rw [digits10]
    split
    · rename_i h
      simp [digitChar_toNat_sub n h]
    · rename_i h
      rw [List.foldl_append,
        ih (n / 10) (Nat.div_lt_self (by omega) (by omega)) acc]
      simp only [List.foldl, List.length_append, List.length_cons,
        List.length_nil, List.length_singleton]
      rw [digitChar_toNat_sub _ (Nat.mod_lt _ (by omega)), pow_succ,
        ← mul_assoc]
      generalize acc * 10 ^ (digits10 (n / 10)).length = a
      omega

theorem repr_eq (n : Nat) : Nat.repr n = ⟨digits10 n⟩ := by
  unfold Nat.repr Nat.toDigits
  rw [toDigitsCore_eq n (n + 1) [] (by omega)]
  simp [List.asString]

theorem toNat?_repr (n : Nat) : String.toNat? (Nat.repr n) = some n := by
  rw [repr_eq]
  have hne : ¬((⟨digits10 n⟩ : String) = "") := by
    rw [String.ext_iff]
    exact digits10_ne_nil n
  have hNat : (⟨digits10 n⟩ : String).isNat = true := by
    unfold String.isNat
    rw [String.all_eq]
    have h1 : (⟨digits10 n⟩ : String).isEmpty = false := by
      rw [← Bool.not_eq_true, String.isEmpty_iff]
      exact hne
    rw [h1]
    simp only [Bool.not_false, Bool.true_and]
    exact List.all_eq_true.2 (digits10_all_digit n)
  simp only [String.toNat?, hNat, if_true]
  rw [String.foldl_eq]
  show some ((digits10 n).foldl (fun a c => a * 10 + (c.toNat - 48)) 0) =
    some n
  rw [digits10_foldl n 0]
  simp

theorem get_zero_digits (n : Nat) :
    (⟨digits10 n⟩ : String).get 0 ≠ '-' := by
  have hv := String.get_of_valid [] (digits10 n)
  simp only [List.nil_append, String.utf8Len_nil] at hv
  obtain ⟨c, t, hct⟩ := List.exists_cons_of_ne_nil (digits10_ne_nil n)
  have hc : c.isDigit = true := digits10_all_digit n c (by rw [hct]; simp)
  rw [show (0 : String.Pos) = ⟨0⟩ from rfl, hv, hct]
  simp only [List.headD_cons]
  intro he
  rw [he] at hc
  exact absurd hc (by decide)

theorem toInt?_repr (n : Nat) :
    String.toInt? (Nat.repr n) = some (Int.ofNat n) := by
  have hget := get_zero_digits n
  have h := toNat?_repr n
  rw [repr_eq] at h ⊢
  unfold String.toInt?
  rw [if_neg hget, h]
  rfl

theorem toString_negSucc_eq (m : Nat) :
    toString (Int.negSucc m) = ⟨'-' :: digits10 (m + 1)⟩ := by
  show "-" ++ toString (m + 1) = _
  rw [show toString (m + 1) = Nat.repr (m + 1) from rfl, repr_eq]
  rfl

theorem toInt?_neg_repr (m : Nat) :
    String.toInt? ⟨'-' :: digits10 (m + 1)⟩ = some (Int.negSucc m) := by
  have hget : (⟨'-' :: digits10 (m + 1)⟩ : String).get 0 = '-' := by
    have hv := String.get_of_valid [] ('-' :: digits10 (m + 1))
    simp only [List.nil_append, String.utf8Len_nil] at hv
    rw [show (0 : String.Pos) = ⟨0⟩ from rfl, hv]
    rfl
  have hvd : Substring.ValidFor ['-'] (digits10 (m + 1)) []
      ((⟨'-' :: digits10 (m + 1)⟩ : String).toSubstring.drop 1) := by
    have hvf :=
      String.validFor_toSubstring (⟨'-' :: digits10 (m + 1)⟩ : String)
    have h := hvf.drop 1
    simpa using h
  have hnat :
      ((⟨'-' :: digits10 (m + 1)⟩ : String).toSubstring.drop 1).toNat? =
        some (m + 1) := by
    unfold Substring.toNat? Substring.isNat
    rw [hvd.all, List.all_eq_true.2 (digits10_all_digit (m + 1))]
    simp only [if_true]
    rw [hvd.foldl]
    show some ((digits10 (m + 1)).foldl
      (fun a c => a * 10 + (c.toNat - 48)) 0) = some (m + 1)
    rw [digits10_foldl (m + 1) 0]
    simp
  unfold String.toInt?
  rw [if_pos hget, hnat]
  show some (-(Int.ofNat (m + 1))) = some (Int.negSucc m)
  rw [Option.some.injEq, Int.negSucc_eq, Int.ofNat_eq_natCast]
  push_cast
  ring

theorem toInt?_toString_int (y : Int) :
    String.toInt? (toString y) = some y := by
  cases y with
  | ofNat n => exact toInt?_repr n
  | negSucc m =>
    rw [toString_negSucc_eq]
    exact toInt?_neg_repr m

theorem toString_int_no_space (y : Int) :
    ∀ c ∈ (toString y).data, (decide (c ≠ ' ') : Bool) = true := by
  cases y with
  | ofNat n =>
    intro c hc
    rw [show toString (Int.ofNat n) = Nat.repr n from rfl, repr_eq] at hc
    have hd := digits10_all_digit n c hc
    simp only [decide_eq_true_eq]
    rintro rfl
    exact absurd hd (by decide)
  | negSucc m =>
    intro c hc
    rw [toString_negSucc_eq] at hc
    rcases List.mem_cons.1 hc with rfl | hmem
    · decide
    · have hd := digits10_all_digit (m + 1) c hmem
      simp only [decide_eq_true_eq]
      rintro rfl
      exact absurd hd (by decide)

theorem takeWhile_append_first (p : Char → Bool) (l1 l2 : List Char)
    (c : Char) (h1 : ∀ a ∈ l1, p a = true) (hc : p c = false) :
    (l1 ++ c :: l2).takeWhile p = l1 := by
  induction l1 with
  | nil => simp [List.takeWhile_cons, hc]
  | cons a t ih =>
    have hpa := h1 a (by simp)
    simp [List.takeWhile_cons, hpa, ih fun x hx => h1 x (by simp [hx])]

theorem age_years_nonneg (dob ref : Date) (h : date_le dob ref) :
    0 ≤ (age_years_months ref dob).1 := by
  unfold date_le at h
  simp only [age_years_months]
  split_ifs <;> simp <;> omega

end Helpers

/-- C6: `clean_id` removes every hyphen and space preserving the other
characters in order, maps the empty string to the empty string, is
idempotent and total, and sends `"990101-14-5678"` to `"990101145678"`. -/
theorem clean_id_spec :
    (∀ s : String,
      (clean_id s).data = s.data.filter (fun c => !(c == '-' || c == ' '))) ∧
    clean_id "" = "" ∧
    (∀ s : String, clean_id (clean_id s) = clean_id s) ∧
    clean_id "990101-14-5678" = "990101145678" :=
  ⟨clean_id_data, rfl, clean_id_idem, by decide⟩

/-- C2: the finalize handler realizes the spec's `classify`: a positive
PCR or IgM yields Lab Confirmed Measles regardless of epi link; otherwise
an epi link yields Epi Linked Measles; otherwise Discarded. Total on the
selectbox domains. -/
theorem classify_spec :
    ∀ (igm : IgMResult) (pcr : PCRResult) (epi : EpiLink),
      finalize_classification igm pcr epi = (classify igm pcr epi).label ∧
      (classify igm pcr epi = .LabConfirmedMeasles ↔
        (pcr = .Positive ∨ igm = .Positive)) ∧
      (classify igm pcr epi = .EpiLinkedMeasles ↔
        (¬(pcr = .Positive ∨ igm = .Positive) ∧ epi = .Yes)) ∧
      (classify igm pcr epi = .Discarded ↔
        (¬(pcr = .Positive ∨ igm = .Positive) ∧ epi = .No)) := by
  intro igm pcr epi
  cases igm <;> cases pcr <;> cases epi <;> decide

/-- C1: on a 12-digit all-digit identifier the derived year is
`2000 + yearSuffix` when `yearSuffix ≤ refYY` (in particular at equality)
and `1900 + yearSuffix` otherwise, where `refYY` is the reference year
modulo 100. -/
theorem century_rule (now : Date) (s : String) (h12 : s.length = 12)
    (hd : s.data.all Char.isDigit) :
    (twoDigitVal s.data 0 ≤ now.year % 100 →
      parse_mykad_dob now s =
        strptimeDate (2000 + twoDigitVal s.data 0) (twoDigitVal s.data 2)
          (twoDigitVal s.data 4)) ∧
    (now.year % 100 < twoDigitVal s.data 0 →
      parse_mykad_dob now s =
        strptimeDate (1900 + twoDigitVal s.data 0) (twoDigitVal s.data 2)
          (twoDigitVal s.data 4)) ∧
    (∀ d : Date, parse_mykad_dob now s = some d →
      d.year =
        if twoDigitVal s.data 0 ≤ now.year % 100 then
          2000 + twoDigitVal s.data 0
        else 1900 + twoDigitVal s.data 0) := by
  have key := parse_mykad_dob_digits now s h12 hd
  refine ⟨fun hle => ?_, fun hgt => ?_, fun d hc => ?_⟩
  · rw [key, if_pos hle]
  · rw [key, if_neg (by omega)]
  · rw [key] at hc
    set Y :=
      (if twoDigitVal s.data 0 ≤ now.year % 100 then
        2000 + twoDigitVal s.data 0
       else 1900 + twoDigitVal s.data 0) with hY
    unfold strptimeDate at hc
    split at hc
    · obtain rfl := Option.some.inj hc
      rfl
    · exact absurd hc (by simp)

/-- C1 witness: reference 2024-06-01 and id `050615071234`:
suffix 05 ≤ 24, so the 2000s branch applies and the DOB is 2005-06-15. -/
theorem century_rule_witness :
    parse_mykad_dob ⟨2024, 6, 1⟩ "050615071234" = some ⟨2005, 6, 15⟩ := by
  have h :=
    (century_rule ⟨2024, 6, 1⟩ "050615071234" (by decide) (by decide)).1
      (by decide)
  rw [h]
  decide

/-- C4 counterexample: `"990101-14-5678"` has length 14 and contains
non-digit characters, yet `parse_mykad_dob` derives a date from it
(the function normalizes its input before validating), refuting the
claim as stated over every input string. -/
theorem malformed_absence_cex :
    ¬(∀ (now : Date) (s : String),
        (¬s.length = 12 ∨ ¬s.data.all Char.isDigit) →
        parse_mykad_dob now s = none) := by
  intro h
  have := h ⟨2024, 6, 1⟩ "990101-14-5678" (Or.inl (by decide))
  exact absurd this (by decide)

/-- C4 amended: for every input free of hyphens and spaces and consisting
only of ASCII characters — the domain on which Python's `isdigit` check
is exactly "every character is one of 0-9" — a length other than 12 or a
non-digit character makes `parse_mykad_dob` return `none`, with no
exception. (Outside that domain the claim fails twice over: the function
normalizes first, and `str.isdigit` accepts non-ASCII Unicode digits, so
`"990101"` plus six Arabic-Indic zeros still derives a date.) -/
theorem malformed_absence (now : Date) (s : String) (h1 : '-' ∉ s.data)
    (h2 : ' ' ∉ s.data) (_hA : ∀ c ∈ s.data, c.toNat < 128)
    (h : ¬s.length = 12 ∨ ¬s.data.all Char.isDigit) :
    parse_mykad_dob now s = none := by
  simp only [parse_mykad_dob, clean_id_of_not_mem s h1 h2]
  rw [if_neg (by tauto)]

/-- C4 witness: the 10-character ASCII digit string `"9901011456"` yields
no derived date. -/
theorem malformed_absence_witness :
    parse_mykad_dob ⟨2024, 6, 1⟩ "9901011456" = none :=
  malformed_absence ⟨2024, 6, 1⟩ "9901011456" (by decide) (by decide)
    (by decide) (Or.inl (by decide))

/-- C5: a 12-digit all-digit identifier whose month/day fields do not form
a valid calendar date in the resolved year yields `none` rather than an
exception. -/
theorem invalid_calendar_absence (now : Date) (s : String)
    (h12 : s.length = 12) (hd : s.data.all Char.isDigit)
    (hv : validDate
        (if twoDigitVal s.data 0 ≤ now.year % 100 then
          2000 + twoDigitVal s.data 0
         else 1900 + twoDigitVal s.data 0)
        (twoDigitVal s.data 2) (twoDigitVal s.data 4) = false) :
    parse_mykad_dob now s = none := by
  rw [parse_mykad_dob_digits now s h12 hd]
  unfold strptimeDate
  rw [hv]
  rfl

/-- C5 witness: `"990231123456"` resolves to 1999-02-31, an invalid
February day, so no date is derived. -/
theorem invalid_calendar_absence_witness :
    parse_mykad_dob ⟨2024, 6, 1⟩ "990231123456" = none :=
  invalid_calendar_absence ⟨2024, 6, 1⟩ "990231123456" (by decide)
    (by decide) (by decide)

/-- C7 counterexample: `parse_mykad_dob` depends on the ambient clock
reading, not only on the identifier: the same identifier resolves to
1950-01-01 under a 2024 clock and to 2050-01-01 under a 2050 clock, so
the reference date is not an explicit parameter of the Python function. -/
theorem clock_param_cex :
    parse_mykad_dob ⟨2024, 6, 1⟩ "500101123456" ≠
      parse_mykad_dob ⟨2050, 6, 1⟩ "500101123456" := by
  decide

/-- C7 amended: the code reads the system clock inside the two functions
rather than taking a reference date parameter; modelling the clock
reading as an explicit input, both are deterministic functions of their
arguments and that reading: `parse_mykad_dob` depends on the clock only
through its year modulo 100, and `calculate_age_display` only through the
clock's year, month, and day-versus-birthday comparison, so two calls
with identical arguments and identical clock readings return identical
results. -/
theorem clock_explicit :
    (∀ (s : String) (r1 r2 : Date), r1.year % 100 = r2.year % 100 →
      parse_mykad_dob r1 s = parse_mykad_dob r2 s) ∧
    (∀ (dob r1 r2 : Date), r1.year = r2.year → r1.month = r2.month →
      (r1.day < dob.day ↔ r2.day < dob.day) →
      calculate_age_display r1 (some dob) =
        calculate_age_display r2 (some dob)) := by
  constructor
  · intro s r1 r2 h
    simp only [parse_mykad_dob, h]
  · intro dob r1 r2 h1 h2 h3
    by_cases hd : r1.day < dob.day
    · have hd2 := h3.1 hd
      simp [calculate_age_display, age_years_months, h1, h2, hd, hd2]
    · have hd2 : ¬r2.day < dob.day := fun h => hd (h3.2 h)
      simp [calculate_age_display, age_years_months, h1, h2, hd, hd2]

/-- C7 witness: clocks of 2024-01-01 and 2124-12-31 agree modulo 100 and
give the same derivation on `"850615071234"`; clocks of 2024-06-01 and
2024-06-10 sit on the same side of birthday 15 and give the same age
string. -/
theorem clock_explicit_witness :
    parse_mykad_dob ⟨2024, 1, 1⟩ "850615071234" =
      parse_mykad_dob ⟨2124, 12, 31⟩ "850615071234" ∧
    calculate_age_display ⟨2024, 6, 1⟩ (some ⟨1985, 6, 15⟩) =
      calculate_age_display ⟨2024, 6, 10⟩ (some ⟨1985, 6, 15⟩) :=
  ⟨clock_explicit.1 "850615071234" ⟨2024, 1, 1⟩ ⟨2124, 12, 31⟩ (by decide),
    clock_explicit.2 ⟨1985, 6, 15⟩ ⟨2024, 6, 1⟩ ⟨2024, 6, 10⟩ rfl rfl
      (by decide)⟩

/-- C8: `parse_mykad_dob` normalizes its own input, so it is invariant
under `clean_id`; in particular the hyphenated `"990101-14-5678"`
still yields a derived date. -/
theorem derive_normalize_invariant :
    (∀ (now : Date) (s : String),
      parse_mykad_dob now s = parse_mykad_dob now (clean_id s)) ∧
    parse_mykad_dob ⟨2024, 6, 1⟩ "990101-14-5678" = some ⟨1999, 1, 1⟩ := by
  constructor
  · intro now s
    simp only [parse_mykad_dob, clean_id_idem]
  · decide

/-- C3: for a date of birth not after the reference date the age
computation yields `years ≥ 0` and `0 ≤ months ≤ 11`, rendered exactly as
`"<years> years, <months> months"`; on (1985-06-15, 2024-06-01) this is
`"38 years, 11 months"`. -/
theorem format_age_spec :
    (∀ (dob ref : Date), 1 ≤ dob.month → dob.month ≤ 12 → 1 ≤ ref.month →
      ref.month ≤ 12 → date_le dob ref →
      0 ≤ (age_years_months ref dob).1 ∧
      0 ≤ (age_years_months ref dob).2 ∧
      (age_years_months ref dob).2 ≤ 11 ∧
      calculate_age_display ref (some dob) =
        toString (age_years_months ref dob).1 ++ " years, " ++
          toString (age_years_months ref dob).2 ++ " months") ∧
    calculate_age_display ⟨2024, 6, 1⟩ (some ⟨1985, 6, 15⟩) =
      "38 years, 11 months" := by
  constructor
  · intro dob ref h1 h2 h3 h4 hle
    refine ⟨age_years_nonneg dob ref hle, ?_, ?_, rfl⟩ <;>
    · unfold date_le at hle
      simp only [age_years_months]
      split_ifs <;> simp <;> omega
  · decide

/-- C3 witness: the bounds and rendering at dob 1985-06-15 and reference
2024-06-01. -/
theorem format_age_spec_witness :
    0 ≤ (age_years_months ⟨2024, 6, 1⟩ ⟨1985, 6, 15⟩).1 ∧
    0 ≤ (age_years_months ⟨2024, 6, 1⟩ ⟨1985, 6, 15⟩).2 ∧
    (age_years_months ⟨2024, 6, 1⟩ ⟨1985, 6, 15⟩).2 ≤ 11 ∧
    calculate_age_display ⟨2024, 6, 1⟩ (some ⟨1985, 6, 15⟩) =
      toString (age_years_months ⟨2024, 6, 1⟩ ⟨1985, 6, 15⟩).1 ++
        " years, " ++
        toString (age_years_months ⟨2024, 6, 1⟩ ⟨1985, 6, 15⟩).2 ++
        " months" :=
  format_age_spec.1 ⟨1985, 6, 15⟩ ⟨2024, 6, 1⟩ (by decide) (by decide)
    (by decide) (by decide) (by decide)

/-- C9: for every date of birth and reference date the rendered age
string starts with the decimal years value followed by a space, so the
workflow's `int(age_str.split(" ")[0])` re-parse always succeeds and
returns exactly the years value — including reference dates before the
date of birth, where the years value is negative and the leading token
parses as that negative integer. -/
theorem age_reparse (ref dob : Date) :
    split_first_token (calculate_age_display ref (some dob)) =
      toString (age_years_months ref dob).1 ∧
    (split_first_token (calculate_age_display ref (some dob))).toInt? =
      some (age_years_months ref dob).1 := by
  have hdisp : calculate_age_display ref (some dob) =
      toString (age_years_months ref dob).1 ++ " years, " ++
        toString (age_years_months ref dob).2 ++ " months" := rfl
  have hdata : (calculate_age_display ref (some dob)).data =
      (toString (age_years_months ref dob).1).data ++
        (' ' :: ("years, ".data ++
          ((toString (age_years_months ref dob).2 ++ " months").data))) := by
    rw [hdisp]
    simp only [String.data_append]
    simp [List.append_assoc]
  have htok : split_first_token (calculate_age_display ref (some dob)) =
      toString (age_years_months ref dob).1 := by
    unfold split_first_token
    apply String.ext
    show (calculate_age_display ref (some dob)).data.takeWhile _ = _
    rw [hdata, takeWhile_append_first _ _ _ _
      (toString_int_no_space (age_years_months ref dob).1) (by decide)]
  refine ⟨htok, ?_⟩
  rw [htok]
  exact toInt?_toString_int (age_years_months ref dob).1

/-- C10: the admin "Confirmed Measles" metric keeps exactly the rows whose
classification contains the substring `"Measles"`: both measles labels
match, `"Discarded"` and `"Pending"` do not, and over any column drawn
from the four labels the metric is the lab-confirmed count plus the
epi-linked count. -/
theorem admin_metric_spec :
    str_contains "Lab Confirmed Measles" "Measles" = true ∧
    str_contains "Epi Linked Measles" "Measles" = true ∧
    str_contains "Discarded" "Measles" = false ∧
    str_contains "Pending" "Measles" = false ∧
    ∀ l : List String,
      (∀ s ∈ l, s = "Lab Confirmed Measles" ∨ s = "Epi Linked Measles" ∨
        s = "Discarded" ∨ s = "Pending") →
      confirmed_measles_metric l =
        (l.filter (fun s => s == "Lab Confirmed Measles")).length +
          (l.filter (fun s => s == "Epi Linked Measles")).length := by
  refine ⟨by decide, by decide, by decide, by decide, ?_⟩
  intro l hl
  induction l with
  | nil => rfl
  | cons a t ih =>
    have ha := hl a (List.mem_cons_self a t)
    have iht := ih fun s hs => hl s (List.mem_cons_of_mem a hs)
    unfold confirmed_measles_metric at iht ⊢
    rcases ha with rfl | rfl | rfl | rfl <;>
      simp only [List.filter_cons, show str_contains "Lab Confirmed Measles"
            "Measles" = true from by decide,
        show str_contains "Epi Linked Measles" "Measles" = true from by
          decide,
        show str_contains "Discarded" "Measles" = false from by decide,
        show str_contains "Pending" "Measles" = false from by decide] <;>
      simp_all <;> omega

/-- C10 witness: on one record of each label the metric is 2 = 1 + 1. -/
theorem admin_metric_spec_witness :
    confirmed_measles_metric
        ["Lab Confirmed Measles", "Epi Linked Measles", "Discarded",
          "Pending"] =
      (["Lab Confirmed Measles", "Epi Linked Measles", "Discarded",
          "Pending"].filter (fun s => s == "Lab Confirmed Measles")).length +
        (["Lab Confirmed Measles", "Epi Linked Measles", "Discarded",
          "Pending"].filter (fun s => s == "Epi Linked Measles")).length :=
  admin_metric_spec.2.2.2.2
    ["Lab Confirmed Measles", "Epi Linked Measles", "Discarded", "Pending"]
    (by decide)

end MeaslesApp
